import Mathlib

/-!
# dumpserver: a shallow embedding of `main.go`

The development follows `src/main.go`:

* `serializeDump` frames a request dump with a timestamp and two separators;
* `dumper.ServeHTTP` captures a request, hands the framed record to the output
  sink and always answers 200;
* `checkSizeFileWriter.Write` stats the backing file, refuses a write that
  would reach the configured maximum and appends otherwise;
* `humanBytes.Set` and the construction of the file sink in `main`.

What the program obtains from outside (the clock, `httputil.DumpRequest`,
`humanize.ParseBytes`, `humanize.Bytes`, the outcome of the system calls) is a
parameter of the definitions.  Go's `int64` and `uint64` are integers reduced
modulo `2^64`; a Go `error` is its message, `nil` is `none`.
-/

namespace Dumpserver

/-! ## Machine integers -/

/-- A byte of a Go `[]byte`. -/
abbrev Byte := UInt8

/-- Two's complement reduction of an integer to the range of Go's `int64`. -/
def wrapInt64 (x : Int) : Int :=
  (x + 9223372036854775808) % 18446744073709551616 - 9223372036854775808

/-- The conversion `int64(n)` of a non-negative `int` or `uint64` value. -/
def int64 (n : Nat) : Int := wrapInt64 (n : Int)

/-- The conversion `uint64(x)` of an `int64` value. -/
def uint64 (x : Int) : Nat := (x % 18446744073709551616).toNat

/-- Go's `+` on two `int64` values: the sum wraps around. -/
def add64 (a b : Int) : Int := wrapInt64 (a + b)

/-- The bytes of a Go string (its UTF-8 encoding). -/
def strBytes (s : String) : List Byte := s.toList.flatMap String.utf8EncodeChar

/-! ## `bytes.Buffer` and `serializeDump` -/

/-- The part of `bytes.Buffer` that `serializeDump` uses: the bytes written so far. -/
structure Buffer where
  buf : List Byte
  deriving DecidableEq, Repr

/-- The call `buf.WriteString(s)`: the bytes of `s` are appended. -/
def Buffer.WriteString (b : Buffer) (s : String) : Buffer := ⟨b.buf ++ strBytes s⟩

/-- The call `buf.Write(p)`: the bytes `p` are appended. -/
def Buffer.Write (b : Buffer) (p : List Byte) : Buffer := ⟨b.buf ++ p⟩

/-- The call `buf.Bytes()`. -/
def Buffer.Bytes (b : Buffer) : List Byte := b.buf

/-- The function `serializeDump`; `now` is what `time.Now().String()` returns
during the call. -/
def serializeDump (now : String) (data : List Byte) : List Byte :=
  let buf : Buffer := ⟨[]⟩
  let buf := buf.WriteString now
  let buf := buf.WriteString "\n---\n"
  let buf := buf.Write data
  let buf := buf.WriteString "\n---\n\n"
  buf.Bytes

/-! ## The backing file -/

/-- The result `(n, err)` of an `io.Writer` call. -/
structure WriteResult where
  n : Int
  err : Option String
  deriving DecidableEq, Repr

/-- The file behind an `*os.File` opened with `O_APPEND`: its contents. -/
structure File where
  contents : List Byte
  deriving DecidableEq, Repr

/-- What the operating system does during one call of the sink: whether `Stat`
fails, how many bytes it is ready to take from an append, and the error it
reports when it takes fewer than it was given. -/
structure OsOutcome where
  statErr : Option String
  accepted : Nat
  writeErr : String
  deriving DecidableEq, Repr

/-- An outcome in which neither system call fails. -/
def OsOutcome.ok (n : Nat) : OsOutcome := ⟨none, n, "short write"⟩

/-- The largest size of a file: sizes and offsets are `int64`. -/
def maxFileSize : Nat := 9223372036854775807

/-- The call `f.Stat()` followed by `fi.Size()`: the size as an `int64`, or the error. -/
def File.Stat (f : File) (o : OsOutcome) : Except String Int :=
  match o.statErr with
  | some err => .error err
  | none => .ok (int64 f.contents.length)

/-- The call `f.Write(data)` on a file opened with `O_APPEND`: the bytes the
system takes go to the end of the file, `n` is their number, and the error is
non-nil exactly when `n` is less than `len(data)`.  The file never grows beyond
`maxFileSize`. -/
def File.Write (f : File) (data : List Byte) (o : OsOutcome) : WriteResult × File :=
  let k := min o.accepted (min data.length (maxFileSize - f.contents.length))
  if k < data.length then
    (⟨(k : Int), some o.writeErr⟩, ⟨f.contents ++ data.take k⟩)
  else
    (⟨(data.length : Int), none⟩, ⟨f.contents ++ data⟩)

/-! ## `checkSizeFileWriter` -/

/-- The type `checkSizeFileWriter`. -/
structure checkSizeFileWriter where
  maxSize : Int
  f : File
  deriving DecidableEq, Repr

/-- The message built by `fmt.Errorf` in `checkSizeFileWriter.Write`, from
`len(data)` and the already formatted size. -/
def capacityMessage (len : Nat) (formatted : String) : String :=
  "write of " ++ toString len ++ " bytes would make the file bigger than the max of " ++ formatted

/-- The method `checkSizeFileWriter.Write`; `humanizeBytes` is `humanize.Bytes`. -/
def checkSizeFileWriter.Write (humanizeBytes : Nat → String) (w : checkSizeFileWriter)
    (data : List Byte) (o : OsOutcome) : WriteResult × checkSizeFileWriter :=
  match w.f.Stat o with
  | .error err => (⟨-1, some err⟩, w)
  | .ok fiSize =>
    if add64 fiSize (int64 data.length) ≥ w.maxSize then
      (⟨-1, some (capacityMessage data.length (humanizeBytes (uint64 fiSize)))⟩, w)
    else
      let r := w.f.Write data o
      (r.1, { w with f := r.2 })

/-- Sequential use of the sink: the calls are made one after the other, each
on the state the previous one left; the result lists, for every call, what it
returned and the state after it. -/
def writeAll (humanizeBytes : Nat → String) (w : checkSizeFileWriter) :
    List (List Byte × OsOutcome) → List (WriteResult × checkSizeFileWriter)
  | [] => []
  | (data, o) :: rest =>
    let r := w.Write humanizeBytes data o
    r :: writeAll humanizeBytes r.2 rest

/-! ## `humanBytes` and the sink built by `main` -/

/-- The method `humanBytes.Set`; `parseBytes` is `humanize.ParseBytes`, `b` the
value stored before the call.  The result is the returned error and the value
stored after the call. -/
def humanBytes.Set (parseBytes : String → Except String Nat) (b : Nat) (value : String) :
    Option String × Nat :=
  match parseBytes value with
  | .error err => (some err, b)
  | .ok s => (none, s)

/-- The value of `flMaxOutputSize` when the flag is not given. -/
def flMaxOutputSizeDefault : Nat := 0

/-- The file sink `main` builds from the size flag and the opened file. -/
def mainFileSink (flMaxOutputSize : Nat) (tmp : File) : checkSizeFileWriter :=
  { maxSize := int64 flMaxOutputSize, f := tmp }

/-! ## `dumper.ServeHTTP` -/

/-- The part of `http.ResponseWriter` the handler can touch: the status sent
by `WriteHeader` (none as long as no header was written) and the body. -/
structure ResponseWriter where
  status : Option Nat
  body : List Byte
  deriving DecidableEq, Repr

/-- The response writer a handler receives. -/
def ResponseWriter.fresh : ResponseWriter := ⟨none, []⟩

/-- The call `w.WriteHeader(code)`: the first call fixes the status. -/
def ResponseWriter.WriteHeader (w : ResponseWriter) (code : Nat) : ResponseWriter :=
  match w.status with
  | some _ => w
  | none => { w with status := some code }

/-- The state after `dumper.ServeHTTP`: the response, the sink and the log. -/
structure Served (σ : Type) where
  response : ResponseWriter
  sink : σ
  log : List String

/-- The type `dumper`, for an output `io.Writer` whose state has type `σ`:
`output` is that writer's `Write` method.  The field `logFn` is never called
by the program and is left out. -/
structure dumper (σ : Type) where
  output : σ → List Byte → WriteResult × σ

/-- The method `dumper.ServeHTTP`.  `sink` is the state of the output writer,
`log` what `log.Printf` has printed so far; `DumpRequest` is
`httputil.DumpRequest(req, true)`; `now` is the time read if `serializeDump`
is called.  The deferred `w.WriteHeader(200)` runs last on every path. -/
def dumper.ServeHTTP {σ ρ : Type} (d : dumper σ)
    (DumpRequest : ρ → Except String (List Byte)) (now : String)
    (sink : σ) (log : List String) (w : ResponseWriter) (req : ρ) : Served σ :=
  match DumpRequest req with
  | .error err =>
    { response := w.WriteHeader 200, sink := sink,
      log := log ++ ["unable to dump request. err=" ++ err] }
  | .ok dump =>
    let r := d.output sink (serializeDump now dump)
    match r.1.err with
    | some err =>
      { response := w.WriteHeader 200, sink := r.2,
        log := log ++ ["unable to write request dump. err=" ++ err] }
    | none => { response := w.WriteHeader 200, sink := r.2, log := log }

/-- A sink that records the argument of every `Write` call it receives and
fails whenever `fails` says so. -/
def recorder (fails : List Byte → Option String) (calls : List (List Byte))
    (p : List Byte) : WriteResult × List (List Byte) :=
  match fails p with
  | some err => (⟨0, some err⟩, calls ++ [p])
  | none => (⟨(p.length : Int), none⟩, calls ++ [p])

/-! ## Arithmetic of the conversions -/

theorem wrapInt64_eq_self (x : Int) (h1 : -9223372036854775808 ≤ x)
    (h2 : x ≤ 9223372036854775807) : wrapInt64 x = x := by
  unfold wrapInt64
  omega

theorem int64_eq_self (n : Nat) (h : n ≤ maxFileSize) : int64 n = (n : Int) := by
  unfold maxFileSize at h
  unfold int64
  exact wrapInt64_eq_self _ (by omega) (by omega)

/-- The sum the size check computes is the exact sum as long as it is at most
`maxFileSize`. -/
theorem add64_exact (a b : Nat) (h : a + b ≤ maxFileSize) :
    add64 (int64 a) (int64 b) = ((a + b : Nat) : Int) := by
  have ha : a ≤ maxFileSize := by omega
  have hb : b ≤ maxFileSize := by omega
  rw [int64_eq_self a ha, int64_eq_self b hb]
  unfold maxFileSize at h
  unfold add64
  rw [wrapInt64_eq_self _ (by omega) (by omega)]
  push_cast
  rfl

/-! ## The size check -/

/-- When `Stat` fails the sink returns that error and leaves its state alone. -/
theorem Write_stat_error (hb : Nat → String) (w : checkSizeFileWriter) (data : List Byte)
    (o : OsOutcome) (err : String) (h : o.statErr = some err) :
    w.Write hb data o = (⟨-1, some err⟩, w) := by
  simp [checkSizeFileWriter.Write, File.Stat, h]

/-- When the comparison of the source holds, the sink returns the capacity
error and leaves its state alone. -/
theorem Write_check_true (hb : Nat → String) (w : checkSizeFileWriter) (data : List Byte)
    (o : OsOutcome) (hs : o.statErr = none)
    (h : w.maxSize ≤ add64 (int64 w.f.contents.length) (int64 data.length)) :
    w.Write hb data o =
      (⟨-1, some (capacityMessage data.length (hb (uint64 (int64 w.f.contents.length))))⟩, w) := by
  simp [checkSizeFileWriter.Write, File.Stat, hs, h]

/-- When the comparison of the source fails, the sink returns what the append
to the file returns. -/
theorem Write_check_false (hb : Nat → String) (w : checkSizeFileWriter) (data : List Byte)
    (o : OsOutcome) (hs : o.statErr = none)
    (h : add64 (int64 w.f.contents.length) (int64 data.length) < w.maxSize) :
    w.Write hb data o = ((w.f.Write data o).1, { w with f := (w.f.Write data o).2 }) := by
  have h2 : ¬ w.maxSize ≤ add64 (int64 w.f.contents.length) (int64 data.length) := by omega
  simp [checkSizeFileWriter.Write, File.Stat, hs, h2]

/-- An append that returns no error has written all of `data`, and the file
it leaves is within the largest file size. -/
theorem File_Write_ok (f : File) (data : List Byte) (o : OsOutcome)
    (h : (f.Write data o).1.err = none) :
    f.Write data o = (⟨(data.length : Int), none⟩, ⟨f.contents ++ data⟩) ∧
      (data.length = 0 ∨ f.contents.length + data.length ≤ maxFileSize) := by
  unfold File.Write at h ⊢
  by_cases hk : min o.accepted (min data.length (maxFileSize - f.contents.length)) < data.length
  · simp [hk] at h
  · simp only [hk, if_false, true_and]
    omega

/-- An append never shrinks below nor grows beyond what a file can hold. -/
theorem File_Write_size (f : File) (data : List Byte) (o : OsOutcome)
    (h : f.contents.length ≤ maxFileSize) :
    (f.Write data o).2.contents.length ≤ maxFileSize := by
  unfold File.Write
  by_cases hk : min o.accepted (min data.length (maxFileSize - f.contents.length)) < data.length
  · simp only [hk, if_true, List.length_append, List.length_take]
    omega
  · simp only [hk, if_false, List.length_append]
    omega

/-- Every call of the sink keeps the cap, and keeps the file within the
largest file size. -/
theorem Write_preserves (hb : Nat → String) (w : checkSizeFileWriter) (data : List Byte)
    (o : OsOutcome) (hwf : w.f.contents.length ≤ maxFileSize) :
    (w.Write hb data o).2.maxSize = w.maxSize ∧
      (w.Write hb data o).2.f.contents.length ≤ maxFileSize := by
  cases hs : o.statErr with
  | some err => simp [Write_stat_error hb w data o err hs, hwf]
  | none =>
    by_cases hc : w.maxSize ≤ add64 (int64 w.f.contents.length) (int64 data.length)
    · simp [Write_check_true hb w data o hs hc, hwf]
    · rw [Write_check_false hb w data o hs (by omega)]
      exact ⟨rfl, File_Write_size w.f data o hwf⟩

/-- A call of the sink that returns no error has appended all of `data`, and
the file it leaves is strictly below the cap. -/
theorem Write_ok_below_cap (hb : Nat → String) (w : checkSizeFileWriter) (data : List Byte)
    (o : OsOutcome) (hwf : w.f.contents.length ≤ maxFileSize)
    (h : (w.Write hb data o).1.err = none) :
    (w.Write hb data o).2.f.contents = w.f.contents ++ data ∧
      ((w.Write hb data o).2.f.contents.length : Int) < w.maxSize := by
  cases hs : o.statErr with
  | some err => simp [Write_stat_error hb w data o err hs] at h
  | none =>
    by_cases hc : w.maxSize ≤ add64 (int64 w.f.contents.length) (int64 data.length)
    · simp [Write_check_true hb w data o hs hc] at h
    · have hc2 : add64 (int64 w.f.contents.length) (int64 data.length) < w.maxSize := by omega
      rw [Write_check_false hb w data o hs hc2] at h ⊢
      obtain ⟨heq, hsz⟩ := File_Write_ok w.f data o h
      have hsum : w.f.contents.length + data.length ≤ maxFileSize := by omega
      rw [add64_exact _ _ hsum] at hc2
      rw [heq]
      refine ⟨rfl, ?_⟩
      simp only [List.length_append]
      exact hc2

/-- C1: if the current size plus `len(data)` reaches the cap,
`checkSizeFileWriter.Write` returns an error; and, the sizes being in the range
of a file size (where the `int64` sum of the check is the exact sum), it
returns `-1` and the backing file is byte-for-byte what it was: nothing is
appended.  This holds whether or not `Stat` succeeds and whatever the system
would have done with an append. -/
theorem Write_rejects_at_cap (hb : Nat → String) (w : checkSizeFileWriter)
    (data : List Byte) (o : OsOutcome)
    (hwf : w.f.contents.length ≤ maxFileSize)
    (h : w.maxSize ≤ ((w.f.contents.length + data.length : Nat) : Int)) :
    (w.Write hb data o).1.err ≠ none ∧
      (w.f.contents.length + data.length ≤ maxFileSize →
        (w.Write hb data o).1.n = -1 ∧
        (w.Write hb data o).2.f.contents = w.f.contents ∧ (w.Write hb data o).2 = w) := by
  constructor
  · intro hnone
    obtain ⟨heq, hlt⟩ := Write_ok_below_cap hb w data o hwf hnone
    rw [heq, List.length_append] at hlt
    omega
  · intro hrange
    cases hs : o.statErr with
    | some err => simp [Write_stat_error hb w data o err hs]
    | none =>
      have hc : w.maxSize ≤ add64 (int64 w.f.contents.length) (int64 data.length) := by
        rw [add64_exact _ _ hrange]; exact h
      simp [Write_check_true hb w data o hs hc]

theorem Write_rejects_at_cap_witness :
    ((⟨5, ⟨[1, 2, 3]⟩⟩ : checkSizeFileWriter).Write (fun n => toString n ++ " B") [7, 8]
        (OsOutcome.ok 2)).1.err ≠ none ∧
      ((⟨5, ⟨[1, 2, 3]⟩⟩ : checkSizeFileWriter).Write (fun n => toString n ++ " B") [7, 8]
        (OsOutcome.ok 2)).1.n = -1 ∧
      ((⟨5, ⟨[1, 2, 3]⟩⟩ : checkSizeFileWriter).Write (fun n => toString n ++ " B") [7, 8]
        (OsOutcome.ok 2)).2.f.contents = [1, 2, 3] ∧
      ((⟨5, ⟨[1, 2, 3]⟩⟩ : checkSizeFileWriter).Write (fun n => toString n ++ " B") [7, 8]
        (OsOutcome.ok 2)).2 = ⟨5, ⟨[1, 2, 3]⟩⟩ :=
  ⟨(Write_rejects_at_cap (fun n => toString n ++ " B") ⟨5, ⟨[1, 2, 3]⟩⟩ [7, 8] (OsOutcome.ok 2)
      (by decide) (by decide)).1,
    (Write_rejects_at_cap (fun n => toString n ++ " B") ⟨5, ⟨[1, 2, 3]⟩⟩ [7, 8] (OsOutcome.ok 2)
      (by decide) (by decide)).2 (by decide)⟩

/-- Below the cap, with `Stat` and the append both succeeding, the sink
returns `len(data)` and the file is extended by `data`. -/
theorem Write_below_cap_ok (hb : Nat → String) (w : checkSizeFileWriter)
    (data : List Byte) (o : OsOutcome)
    (hwf : w.f.contents.length ≤ maxFileSize) (hs : o.statErr = none)
    (h : ((w.f.contents.length + data.length : Nat) : Int) < w.maxSize)
    (happend : (w.f.Write data o).1.err = none) :
    w.Write hb data o =
      (⟨(data.length : Int), none⟩, { w with f := ⟨w.f.contents ++ data⟩ }) := by
  obtain ⟨heq, hsz⟩ := File_Write_ok w.f data o happend
  have hsum : w.f.contents.length + data.length ≤ maxFileSize := by omega
  have hc : add64 (int64 w.f.contents.length) (int64 data.length) < w.maxSize := by
    rw [add64_exact _ _ hsum]; exact h
  rw [Write_check_false hb w data o hs hc, heq]

/-- C8: if the current size plus `len(data)` is below the cap and the
underlying append succeeds, `checkSizeFileWriter.Write` returns `len(data)`
with no error and the file becomes the old contents followed by `data`. -/
theorem Write_appends_below_cap (hb : Nat → String) (w : checkSizeFileWriter)
    (data : List Byte) (o : OsOutcome)
    (hwf : w.f.contents.length ≤ maxFileSize) (hs : o.statErr = none)
    (h : ((w.f.contents.length + data.length : Nat) : Int) < w.maxSize)
    (happend : (w.f.Write data o).1.err = none) :
    (w.Write hb data o).1 = ⟨(data.length : Int), none⟩ ∧
      (w.Write hb data o).2.f.contents = w.f.contents ++ data ∧
      (w.Write hb data o).2.maxSize = w.maxSize := by
  rw [Write_below_cap_ok hb w data o hwf hs h happend]
  exact ⟨rfl, rfl, rfl⟩

theorem Write_appends_below_cap_witness :
    ((⟨6, ⟨[1, 2, 3]⟩⟩ : checkSizeFileWriter).Write (fun n => toString n ++ " B") [7, 8]
        (OsOutcome.ok 2)).1 = ⟨((([7, 8] : List Byte).length : Nat) : Int), none⟩ ∧
      ((⟨6, ⟨[1, 2, 3]⟩⟩ : checkSizeFileWriter).Write (fun n => toString n ++ " B") [7, 8]
        (OsOutcome.ok 2)).2.f.contents = [1, 2, 3] ++ [7, 8] ∧
      ((⟨6, ⟨[1, 2, 3]⟩⟩ : checkSizeFileWriter).Write (fun n => toString n ++ " B") [7, 8]
        (OsOutcome.ok 2)).2.maxSize = 6 :=
  Write_appends_below_cap (fun n => toString n ++ " B") ⟨6, ⟨[1, 2, 3]⟩⟩ [7, 8] (OsOutcome.ok 2)
    (by decide) rfl (by decide) (by decide)

/-- C3: with any cap `M` (so for every `M >= 1`) and an empty file, a write of `M - 1` bytes whose append
does not fail succeeds (it returns `M - 1` and no error, and the file then
holds exactly the data), and a write of `M` bytes or more returns an error. -/
theorem Write_boundary (hb : Nat → String) (M : Int)
    (small big : List Byte) (o o2 : OsOutcome)
    (hsmall : (small.length : Int) = M - 1) (hbig : M ≤ (big.length : Int))
    (hs : o.statErr = none) (happend : ((⟨[]⟩ : File).Write small o).1.err = none) :
    (⟨M, ⟨[]⟩⟩ : checkSizeFileWriter).Write hb small o = (⟨M - 1, none⟩, ⟨M, ⟨small⟩⟩) ∧
      ((⟨M, ⟨[]⟩⟩ : checkSizeFileWriter).Write hb big o2).1.err ≠ none := by
  have hwf : (⟨M, ⟨[]⟩⟩ : checkSizeFileWriter).f.contents.length ≤ maxFileSize := by
    simp [maxFileSize]
  constructor
  · have hlt : (((⟨M, ⟨[]⟩⟩ : checkSizeFileWriter).f.contents.length + small.length : Nat) : Int)
        < (⟨M, ⟨[]⟩⟩ : checkSizeFileWriter).maxSize := by
      simp only [List.length_nil, Nat.zero_add]
      omega
    rw [Write_below_cap_ok hb ⟨M, ⟨[]⟩⟩ small o hwf hs hlt happend, hsmall]
    simp
  · intro herr
    have h := (Write_ok_below_cap hb ⟨M, ⟨[]⟩⟩ big o2 hwf herr).2
    rw [(Write_ok_below_cap hb ⟨M, ⟨[]⟩⟩ big o2 hwf herr).1] at h
    simp only [List.length_append, List.length_nil, Nat.zero_add] at h
    omega

theorem Write_boundary_witness :
    (⟨4, ⟨[]⟩⟩ : checkSizeFileWriter).Write (fun n => toString n ++ " B") [1, 2, 3]
        (OsOutcome.ok 3) = (⟨4 - 1, none⟩, ⟨4, ⟨[1, 2, 3]⟩⟩) ∧
      ((⟨4, ⟨[]⟩⟩ : checkSizeFileWriter).Write (fun n => toString n ++ " B") [1, 2, 3, 4]
        (OsOutcome.ok 4)).1.err ≠ none :=
  Write_boundary (fun n => toString n ++ " B") 4 [1, 2, 3] [1, 2, 3, 4]
    (OsOutcome.ok 3) (OsOutcome.ok 4) (by decide) (by decide) rfl (by decide)

/-- C7: with the default max-output-size (flag not given, so `maxSize = 0`),
every `checkSizeFileWriter.Write` returns an error, for every file and every
data, the empty byte sequence included; in particular the first write to an
empty file fails.  As long as the sizes are in the range of a file size the
call returns `-1` and the sink is left as it was. -/
theorem Write_default_cap_rejects (hb : Nat → String) (tmp : File) (data : List Byte)
    (o : OsOutcome) (hwf : tmp.contents.length ≤ maxFileSize) :
    (mainFileSink flMaxOutputSizeDefault tmp).maxSize = 0 ∧
      ((mainFileSink flMaxOutputSizeDefault tmp).Write hb data o).1.err ≠ none ∧
      ((mainFileSink flMaxOutputSizeDefault ⟨[]⟩).Write hb data o).1.err ≠ none ∧
      (tmp.contents.length + data.length ≤ maxFileSize →
        ((mainFileSink flMaxOutputSizeDefault tmp).Write hb data o).1.n = -1 ∧
        ((mainFileSink flMaxOutputSizeDefault tmp).Write hb data o).2
          = mainFileSink flMaxOutputSizeDefault tmp) := by
  have h0 : ∀ t : File, (mainFileSink flMaxOutputSizeDefault t).maxSize = 0 := by
    intro t
    simp [mainFileSink, flMaxOutputSizeDefault, int64, wrapInt64]
  have herr : ∀ t : File, t.contents.length ≤ maxFileSize →
      ((mainFileSink flMaxOutputSizeDefault t).Write hb data o).1.err ≠ none := by
    intro t ht hnone
    have h := (Write_ok_below_cap hb (mainFileSink flMaxOutputSizeDefault t) data o ht hnone).2
    rw [h0 t] at h
    omega
  refine ⟨h0 tmp, herr tmp hwf, herr ⟨[]⟩ (by simp [maxFileSize]), ?_⟩
  intro hrange
  cases hs : o.statErr with
  | some err => simp [Write_stat_error hb _ data o err hs]
  | none =>
    have hc : (mainFileSink flMaxOutputSizeDefault tmp).maxSize ≤
        add64 (int64 (mainFileSink flMaxOutputSizeDefault tmp).f.contents.length)
          (int64 data.length) := by
      have he := add64_exact tmp.contents.length data.length hrange
      rw [h0 tmp]
      show 0 ≤ add64 (int64 tmp.contents.length) (int64 data.length)
      rw [he]
      omega
    simp [Write_check_true hb _ data o hs hc]

theorem Write_default_cap_rejects_witness :
    (mainFileSink flMaxOutputSizeDefault ⟨[]⟩).maxSize = 0 ∧
      ((mainFileSink flMaxOutputSizeDefault ⟨[1, 2]⟩).Write (fun n => toString n ++ " B") []
        (OsOutcome.ok 0)).1.err ≠ none ∧
      ((mainFileSink flMaxOutputSizeDefault ⟨[1, 2]⟩).Write (fun n => toString n ++ " B") []
        (OsOutcome.ok 0)).1.n = -1 ∧
      ((mainFileSink flMaxOutputSizeDefault ⟨[1, 2]⟩).Write (fun n => toString n ++ " B") []
        (OsOutcome.ok 0)).2 = mainFileSink flMaxOutputSizeDefault ⟨[1, 2]⟩ :=
  ⟨(Write_default_cap_rejects (fun n => toString n ++ " B") ⟨[]⟩ [] (OsOutcome.ok 0)
      (by decide)).1,
    (Write_default_cap_rejects (fun n => toString n ++ " B") ⟨[1, 2]⟩ [] (OsOutcome.ok 0)
      (by decide)).2.1,
    (Write_default_cap_rejects (fun n => toString n ++ " B") ⟨[1, 2]⟩ [] (OsOutcome.ok 0)
      (by decide)).2.2.2 (by decide)⟩

/-- C2: under sequential use, starting from any file and any cap, after every
call of `checkSizeFileWriter.Write` that returns no error the size of the
backing file is strictly below the cap, hence does not exceed it. -/
theorem writeAll_size_below_cap (hb : Nat → String) (calls : List (List Byte × OsOutcome))
    (w : checkSizeFileWriter) (hwf : w.f.contents.length ≤ maxFileSize)
    (r : WriteResult × checkSizeFileWriter) (hr : r ∈ writeAll hb w calls)
    (hok : r.1.err = none) :
    (r.2.f.contents.length : Int) < w.maxSize ∧ (r.2.f.contents.length : Int) ≤ w.maxSize := by
  induction calls generalizing w with
  | nil => simp [writeAll] at hr
  | cons c rest ih =>
    obtain ⟨data, o⟩ := c
    simp only [writeAll, List.mem_cons] at hr
    obtain ⟨hmax, hwf2⟩ := Write_preserves hb w data o hwf
    rcases hr with hr | hr
    · subst hr
      have h := (Write_ok_below_cap hb w data o hwf hok).2
      exact ⟨h, le_of_lt h⟩
    · have h := ih (w.Write hb data o).2 hwf2 hr
      rw [hmax] at h
      exact h

theorem writeAll_size_below_cap_witness :
    (⟨2, none⟩, (⟨6, ⟨[1, 2, 3, 7, 8]⟩⟩ : checkSizeFileWriter)) ∈
        writeAll (fun n => toString n ++ " B") ⟨6, ⟨[1, 2, 3]⟩⟩
          [([7, 8], OsOutcome.ok 2), ([9], OsOutcome.ok 1)] ∧
      ((([1, 2, 3, 7, 8] : List Byte).length : Nat) : Int) < 6 ∧
      ((([1, 2, 3, 7, 8] : List Byte).length : Nat) : Int) ≤ 6 :=
  ⟨by decide, writeAll_size_below_cap (fun n => toString n ++ " B")
    [([7, 8], OsOutcome.ok 2), ([9], OsOutcome.ok 1)] ⟨6, ⟨[1, 2, 3]⟩⟩ (by decide)
    (⟨2, none⟩, ⟨6, ⟨[1, 2, 3, 7, 8]⟩⟩) (by decide) rfl⟩


/-! ## The serializer -/

/-- C4: `serializeDump` returns the bytes of the timestamp, then newline
`---` newline, then the input bytes unchanged, then newline `---` newline
newline, and nothing else; its length is the length of the timestamp plus the
length of the input plus 11. -/
theorem serializeDump_frame (now : String) (B : List Byte) :
    serializeDump now B = strBytes now ++ strBytes "\n---\n" ++ B ++ strBytes "\n---\n\n" ∧
      serializeDump now B =
        strBytes now ++ [10, 45, 45, 45, 10] ++ B ++ [10, 45, 45, 45, 10, 10] ∧
      (serializeDump now B).length = (strBytes now).length + B.length + 11 := by
  have h1 : strBytes "\n---\n" = [10, 45, 45, 45, 10] := by decide
  have h2 : strBytes "\n---\n\n" = [10, 45, 45, 45, 10, 10] := by decide
  have h : serializeDump now B
      = strBytes now ++ strBytes "\n---\n" ++ B ++ strBytes "\n---\n\n" := by
    simp [serializeDump, Buffer.WriteString, Buffer.Write, Buffer.Bytes]
  refine ⟨h, ?_, ?_⟩
  · rw [h, h1, h2]
  · rw [h, h1, h2]
    simp only [List.length_append, List.length_cons, List.length_nil]
    omega

/-! ## The handler -/

/-- C5: whatever the request, whether the capture fails or succeeds and
whether the sink write fails or succeeds, `dumper.ServeHTTP` leaves the
response with status 200 and an empty body; it never writes to the body. -/
theorem ServeHTTP_always_200 {σ ρ : Type} (d : dumper σ)
    (DumpRequest : ρ → Except String (List Byte)) (now : String) (sink : σ)
    (log : List String) (req : ρ) :
    (d.ServeHTTP DumpRequest now sink log ResponseWriter.fresh req).response
        = ⟨some 200, []⟩ ∧
      ∀ w : ResponseWriter,
        (d.ServeHTTP DumpRequest now sink log w req).response.body = w.body := by
  have hbody : ∀ w : ResponseWriter, (w.WriteHeader 200).body = w.body := by
    intro w
    unfold ResponseWriter.WriteHeader
    cases w.status <;> rfl
  constructor
  · unfold dumper.ServeHTTP
    cases DumpRequest req with
    | error err => rfl
    | ok dump =>
      dsimp only
      cases (d.output sink (serializeDump now dump)).1.err <;> rfl
  · intro w
    unfold dumper.ServeHTTP
    cases DumpRequest req with
    | error err => exact hbody w
    | ok dump =>
      dsimp only
      cases (d.output sink (serializeDump now dump)).1.err <;> exact hbody w

/-- C6: when the capture fails `dumper.ServeHTTP` does not call the sink, whose
state stays what it was; when the capture returns `D` the sink receives exactly
one `Write`, with argument `serializeDump(D)`, also when that call fails.  The
second part reads the calls off a sink that records them. -/
theorem ServeHTTP_sink_calls {σ ρ : Type} (d : dumper σ)
    (DumpRequest : ρ → Except String (List Byte)) (now : String) (sink : σ)
    (log : List String) (w : ResponseWriter) (req : ρ)
    (fails : List Byte → Option String) (calls : List (List Byte)) :
    (d.ServeHTTP DumpRequest now sink log w req).sink =
        (match DumpRequest req with
          | .error _ => sink
          | .ok D => (d.output sink (serializeDump now D)).2) ∧
      ((⟨recorder fails⟩ : dumper (List (List Byte))).ServeHTTP DumpRequest now calls log w
          req).sink =
        (match DumpRequest req with
          | .error _ => calls
          | .ok D => calls ++ [serializeDump now D]) := by
  have hgen : ∀ (τ : Type) (e : dumper τ) (s : τ),
      (e.ServeHTTP DumpRequest now s log w req).sink =
        (match DumpRequest req with
          | .error _ => s
          | .ok D => (e.output s (serializeDump now D)).2) := by
    intro τ e s
    unfold dumper.ServeHTTP
    cases DumpRequest req with
    | error err => rfl
    | ok dump =>
      dsimp only
      cases (e.output s (serializeDump now dump)).1.err <;> rfl
  refine ⟨hgen σ d sink, ?_⟩
  rw [hgen]
  cases DumpRequest req with
  | error err => rfl
  | ok dump =>
    dsimp only
    unfold recorder
    cases fails (serializeDump now dump) <;> rfl

/-! ## The capacity message and the configured cap -/

/-- C9, the code at a rejected write: with a cap of 5 bytes, a file of 3 bytes
and 2 bytes to write, the message formats the current file size (3), whatever
`humanize.Bytes` is, and not the configured maximum (5); with the formatting of
`humanize.Bytes` for sizes below 10 the message ends in `3 B`. -/
theorem Write_message_formats_file_size :
    (∀ hb : Nat → String,
      (⟨5, ⟨[1, 2, 3]⟩⟩ : checkSizeFileWriter).Write hb [7, 8] (OsOutcome.ok 2) =
        (⟨-1, some ("write of 2 bytes would make the file bigger than the max of " ++ hb 3)⟩,
          ⟨5, ⟨[1, 2, 3]⟩⟩)) ∧
      ((⟨5, ⟨[1, 2, 3]⟩⟩ : checkSizeFileWriter).Write (fun n => toString n ++ " B") [7, 8]
        (OsOutcome.ok 2)).1.err =
          some "write of 2 bytes would make the file bigger than the max of 3 B" := by
  refine ⟨fun hb => ?_, by decide⟩
  have hs : (OsOutcome.ok 2).statErr = none := rfl
  have hc : (⟨5, ⟨[1, 2, 3]⟩⟩ : checkSizeFileWriter).maxSize ≤
      add64 (int64 (⟨5, ⟨[1, 2, 3]⟩⟩ : checkSizeFileWriter).f.contents.length)
        (int64 ([7, 8] : List Byte).length) := by decide
  rw [Write_check_true hb ⟨5, ⟨[1, 2, 3]⟩⟩ [7, 8] (OsOutcome.ok 2) hs hc]
  have h3 : uint64 (int64 (⟨5, ⟨[1, 2, 3]⟩⟩ : checkSizeFileWriter).f.contents.length) = 3 := by
    decide
  have hm : ∀ t : String, capacityMessage ([7, 8] : List Byte).length t =
      "write of 2 bytes would make the file bigger than the max of " ++ t := by
    intro t
    have hp : "write of " ++ toString ([7, 8] : List Byte).length
        ++ " bytes would make the file bigger than the max of "
        = "write of 2 bytes would make the file bigger than the max of " := by decide
    unfold capacityMessage
    rw [hp]
  rw [h3, hm]

/-- C10, the code at a configured size of `10EB`: `humanBytes.Set` stores
`10^19`, the sink's `maxSize` is `int64(10^19)`, a negative number and not
`10^19`; with this cap a write of one byte to an empty file is rejected, and
so is an empty write, while the smaller configured size 1000 accepts the same
one-byte write. -/
theorem configured_cap_wraps :
    humanBytes.Set (fun _ => .ok 10000000000000000000) 0 "10EB"
        = (none, 10000000000000000000) ∧
      (mainFileSink 10000000000000000000 ⟨[]⟩).maxSize = -8446744073709551616 ∧
      (mainFileSink 10000000000000000000 ⟨[]⟩).maxSize ≠ 10000000000000000000 ∧
      ((mainFileSink 1000 ⟨[]⟩).Write (fun n => toString n ++ " B") [65] (OsOutcome.ok 1))
        = (⟨1, none⟩, mainFileSink 1000 ⟨[65]⟩) ∧
      ((mainFileSink 10000000000000000000 ⟨[]⟩).Write (fun n => toString n ++ " B") [65]
          (OsOutcome.ok 1))
        = (⟨-1, some "write of 1 bytes would make the file bigger than the max of 0 B"⟩,
            mainFileSink 10000000000000000000 ⟨[]⟩) ∧
      ((mainFileSink 10000000000000000000 ⟨[]⟩).Write (fun n => toString n ++ " B") []
          (OsOutcome.ok 0)).1.err ≠ none := by
  refine ⟨rfl, by decide, by decide, by decide, by decide, by decide⟩

/-- Below `2^63` the conversion of the configured size is exact, so there the
cap of the sink is the configured size and grows with it. -/
theorem mainFileSink_maxSize_exact (v : Nat) (tmp : File) (h : v ≤ maxFileSize) :
    (mainFileSink v tmp).maxSize = (v : Int) := by
  unfold mainFileSink
  exact int64_eq_self v h

end Dumpserver
